import Mathlib

/-!
# Verification of the integration-metrics dashboard core

Shallow embedding of the data pipeline of `src/streamlit_app.py`:
CSV normalization (`load_csv`), the SQLite-backed replace-all store
(`persist_df`, `load_all_from_db`), the error-status classifier
(`is_error_status` and its runtime override), the rolling-window selector
(`window_mask`) and the top-N error aggregation
(`build_chart_errors_by_tipo`).

Modelling conventions:
* Calendar instants (`pandas.Timestamp`) are modelled as a pair of an
  integer calendar day (`day`, days since an epoch) and a time-of-day
  component (`tod`); `.dt.date` and `strftime("%Y-%m-%d")` both project to
  `day`, and reparsing a stored `"%Y-%m-%d"` string with `pd.to_datetime`
  recovers exactly that day (midnight).
* Cell parsing done by the pandas library (`pd.to_numeric(..., errors="coerce")`,
  `pd.to_datetime(..., errors="coerce")`) is modelled by raw rows carrying the
  parse result as an `Option`: `none` is NaN/NaT (non-numeric / unparseable).
* A `DataFrame` of normalized rows is a `List`; the SQLite table is a
  `List` of store rows whose order is not semantic (SQL tables are
  unordered; pandas `groupby` key order is irrelevant to the store's
  content, so grouping enumerates the distinct keys via `dedup`).
-/

/-- A parsed timestamp: calendar day (days since an epoch) plus a
time-of-day component.  `%Y-%m-%d` formatting keeps only `day`. -/
structure DT where
  day : Int
  tod : Nat
deriving DecidableEq, Repr

/-- One raw CSV row, with the canonical columns' cells already subjected to
the pandas parsers: `qtd` is the `pd.to_numeric(..., errors="coerce")`
result (`none` = NaN, i.e. non-numeric or missing), `status`/`tipo` are the
`astype(str)` coercions, `data_integracao` is the
`pd.to_datetime(..., errors="coerce")` result (`none` = NaT). -/
structure RawRow where
  qtd : Option Int
  status : String
  tipo : String
  data_integracao : Option DT
deriving DecidableEq, Repr

/-- A raw uploaded table: its header (column names as read from the file)
and its rows. -/
structure RawTable where
  cols : List String
  rows : List RawRow
deriving DecidableEq, Repr

/-- A normalized record, one row of the dataframe returned by `load_csv`:
`qtd` is an `int`, `status`/`tipo` are strings, `data_integracao` parsed,
and `dia = df["data_integracao"].dt.date`. -/
structure NRow where
  status : String
  tipo : String
  qtd : Int
  data_integracao : DT
  dia : Int
deriving DecidableEq, Repr

/-- One row of the SQLite table `integracoes`: key `(status, data_integracao,
tipo)` with the date stored as a `"%Y-%m-%d"` string, i.e. just the day. -/
structure SRow where
  status : String
  data_integracao : Int
  tipo : String
  qtd : Int
deriving DecidableEq, Repr

/-- A row of the dataframe returned by `load_all_from_db`: the persisted
columns plus the re-derived `dia` (`dia = data_integracao.dt.date`; the
stored string is day-precision, so `dia` IS the stored day). -/
structure LRow where
  status : String
  dia : Int
  tipo : String
  qtd : Int
deriving DecidableEq, Repr

/-- Python `str.strip()`: drop leading and trailing whitespace. -/
def pyStrip (s : String) : String :=
  ⟨((s.data.dropWhile Char.isWhitespace).reverse.dropWhile Char.isWhitespace).reverse⟩

/-- Python `str.lower()`. -/
def pyLower (s : String) : String :=
  ⟨s.data.map Char.toLower⟩

/-- `(s or "").strip().lower()` applied to a status value (`s` is always a
string here, so the `or ""` branch is the identity). -/
def pyNormStatus (s : String) : String := pyLower (pyStrip s)

/-- Whether `needle` is a prefix of `hay` (character lists). -/
def isPrefixList : List Char → List Char → Bool
  | [], _ => true
  | _ :: _, [] => false
  | a :: as, b :: bs => a == b && isPrefixList as bs

/-- Whether `needle` occurs contiguously inside `hay` (character lists). -/
def isInfixList (needle : List Char) : List Char → Bool
  | [] => isPrefixList needle []
  | b :: bs => isPrefixList needle (b :: bs) || isInfixList needle bs

/-- Python `needle in hay` on strings: substring containment. -/
def containsSub (needle hay : String) : Bool :=
  isInfixList needle.data hay.data

/-- Lexicographic order on character lists by code point, with the prefix
rule — the order Python (and hence pandas group-key sorting) uses on
strings.  Structurally recursive so that concrete instances evaluate. -/
def lexLe : List Char → List Char → Bool
  | [], _ => true
  | _ :: _, [] => false
  | a :: as, b :: bs =>
    decide (a.toNat < b.toNat) || (decide (a.toNat = b.toNat) && lexLe as bs)

/-- Python `a <= b` on strings. -/
def strLe (a b : String) : Prop := lexLe a.data b.data = true

instance : DecidableRel strLe := fun a b =>
  inferInstanceAs (Decidable (lexLe a.data b.data = true))

/-- `is_error_status` (default heuristic, `streamlit_app.py:199-208`):
after strip+lower, an error iff it contains "erro", "error",
"integrado_parcial" or "fail", or equals one of "nok", "falha", "failed". -/
def is_error_status (s : String) : Bool :=
  let t := pyNormStatus s
  containsSub "erro" t || containsSub "error" t ||
    containsSub "integrado_parcial" t || containsSub "fail" t ||
    (t == "nok" || t == "falha" || t == "failed")

/-- The runtime override of `is_error_status` (`streamlit_app.py:422-425`):
pure set membership of the stripped, lower-cased status in the
user-selected list. -/
def is_error_status_override (selected_errs : List String) (s : String) : Bool :=
  (pyNormStatus s) ∈ selected_errs

/-- The classifier actually in effect after the sidebar block: the
redefinition at `streamlit_app.py:422-425` is guarded by
`if selected_errors:`, so a non-empty selection replaces the heuristic and
an empty one leaves it untouched. -/
def effective_is_error (selected_errs : List String) (s : String) : Bool :=
  if selected_errs = [] then is_error_status s
  else is_error_status_override selected_errs s

/-- The required columns of `load_csv`, in alphabetical order (the source
keeps them as a Python `set`; only the sorted order is observable, in the
error message). -/
def requiredCols : List String := ["data_integracao", "qtd", "status", "tipo"]

/-- Header normalization of `load_csv`: `[c.strip().lower() for c in df.columns]`. -/
def normCols (t : RawTable) : List String := t.cols.map (fun c => pyLower (pyStrip c))

/-- `sorted(required - set(df.columns))`: the required columns absent from
the normalized header, alphabetically (filtering the already-sorted
`requiredCols` list). -/
def missingCols (t : RawTable) : List String :=
  requiredCols.filter (fun c => !(c ∈ normCols t))

/-- The `ValueError` message raised by `load_csv` on missing columns. -/
def schemaErrMsg (missing : List String) : String :=
  "CSV não contém as colunas obrigatórias: " ++ String.intercalate ", " missing

/-- Row conversion inside `load_csv` for a row whose date parsed: `qtd`
becomes `to_numeric(...).fillna(0)` (so NaN ↦ 0), `status`/`tipo` stay the
string coercions, `dia` is the date part of the parsed timestamp. -/
def convRow (raw : RawRow) (d : DT) : NRow :=
  ⟨raw.status, raw.tipo, raw.qtd.getD 0, d, d.day⟩

/-- `load_csv` (`streamlit_app.py:166-196`): validate the normalized
header, coerce `qtd` (NaN→0), keep `status`/`tipo` as strings, parse
`data_integracao` with `errors="coerce"` and drop the rows where it is
NaT, derive `dia`. -/
def load_csv (t : RawTable) : Except String (List NRow) :=
  if missingCols t ≠ [] then .error (schemaErrMsg (missingCols t))
  else .ok (t.rows.filterMap (fun raw => raw.data_integracao.map (convRow raw)))

/-- The store key `(status, data_integracao, tipo)` of a normalized row, as
used by `persist_df`: `data_integracao` is formatted `"%Y-%m-%d"`, i.e.
truncated to the calendar day. -/
def NRow.skey (r : NRow) : String × Int × String := (r.status, r.data_integracao.day, r.tipo)

/-- Sum of `qtd` over the normalized rows having store key `k`. -/
def sumQtdN (k : String × Int × String) (df : List NRow) : Int :=
  ((df.filter (fun r => r.skey = k)).map NRow.qtd).sum

/-- The grouped rows written by `persist_df`: one row per distinct
`(status, data_integracao, tipo)` key, `qtd` summed
(`rows.groupby([...], as_index=False)["qtd"].sum()`).  Row order is not
semantic (the rows land in an SQL table). -/
def persistRows (df : List NRow) : List SRow :=
  ((df.map NRow.skey).dedup).map (fun k => ⟨k.1, k.2.1, k.2.2, sumQtdN k df⟩)

/-- `persist_df` (`streamlit_app.py:114-144`): delete every existing row,
then (unless the input is empty) insert the key-grouped input.  Returns
the new store content together with `(rows_written, rows_received)`. -/
def persist_df (df : List NRow) (store : List SRow) : List SRow × Nat × Nat :=
  if df = [] then ([], 0, 0)
  else (persistRows df, (persistRows df).length, df.length)

/-- `load_all_from_db` (`streamlit_app.py:147-160`): full scan; every
stored date is a `"%Y-%m-%d"` string, so `pd.to_datetime(..., errors="coerce")`
re-parses it to midnight of the same day, no row is dropped, and the
re-derived `dia` is the stored day. -/
def load_all_from_db (store : List SRow) : List LRow :=
  store.map (fun r => ⟨r.status, r.data_integracao, r.tipo, r.qtd⟩)

/-- The store key of a store row. -/
def SRow.skey (r : SRow) : String × Int × String := (r.status, r.data_integracao, r.tipo)

/-- The `(status, dia, tipo)` key of a loaded row. -/
def LRow.lkey (r : LRow) : String × Int × String := (r.status, r.dia, r.tipo)

/-- Sum of `qtd` over the loaded rows having key `k`. -/
def sumQtdL (k : String × Int × String) (df : List LRow) : Int :=
  ((df.filter (fun r => r.lkey = k)).map LRow.qtd).sum

/-- `window_mask` (`streamlit_app.py:233-236`): membership of a row's `dia`
in the inclusive range `[max_day - (days-1), max_day]`. -/
def window_mask (maxDay : Int) (days : Int) (r : LRow) : Bool :=
  decide (maxDay - (days - 1) ≤ r.dia) && decide (r.dia ≤ maxDay)

/-- `df.loc[window_mask(df, max_day, days)]`: the window's records. -/
def selectWindow (rows : List LRow) (maxDay : Int) (days : Int) : List LRow :=
  rows.filter (window_mask maxDay days)

/-- `df_window.loc[df_window["status"].apply(cls)]`: the window's error
rows under classifier `cls`. -/
def errRows (cls : String → Bool) (rows : List LRow) : List LRow :=
  rows.filter (fun r => cls r.status)

/-- Sum of `qtd` over the rows of category `t`. -/
def tipoTotal (rows : List LRow) (t : String) : Int :=
  ((rows.filter (fun r => r.tipo = t)).map LRow.qtd).sum

/-- The distinct categories of `rows` in ascending order — the index of
`rows.groupby("tipo")["qtd"].sum()` (pandas sorts group keys). -/
def tipoKeys (rows : List LRow) : List String :=
  List.insertionSort strLe ((rows.map LRow.tipo).dedup)

/-- `rows.groupby("tipo")["qtd"].sum()`: per-category totals, keyed in
ascending category order. -/
def tipoTotals (rows : List LRow) : List (String × Int) :=
  (tipoKeys rows).map (fun t => (t, tipoTotal rows t))

/-- Ordering of `(category, total)` pairs by descending total;
`Series.nlargest` returns the rows in this order, keeping earlier index
entries first among ties (`keep="first"`, and the series index is sorted
ascending by category), which a stable sort by this relation reproduces. -/
def valGe (a b : String × Int) : Prop := b.2 ≤ a.2

instance : IsTotal (String × Int) valGe := ⟨fun a b => Int.le_total b.2 a.2⟩

instance : IsTrans (String × Int) valGe := ⟨fun _ _ _ h1 h2 => le_trans h2 h1⟩

instance : DecidableRel valGe := fun a b => inferInstanceAs (Decidable (b.2 ≤ a.2))

/-- `df_err.groupby("tipo")["qtd"].sum().nlargest(top_n).index.tolist()`:
the categories with the `top_n` largest error totals, ties broken in favor
of the lexically smaller category. -/
def topTipos (cls : String → Bool) (rows : List LRow) (n : Nat) : List String :=
  ((List.insertionSort valGe (tipoTotals (errRows cls rows))).take n).map Prod.fst

/-- Ascending lexical order on `(dia, tipo)` group keys, the key order of
`groupby(["dia", "tipo"])`. -/
def diaTipoLe (a b : Int × String) : Prop := a.1 < b.1 ∨ (a.1 = b.1 ∧ strLe a.2 b.2)

instance : DecidableRel diaTipoLe := fun a b =>
  inferInstanceAs (Decidable (a.1 < b.1 ∨ (a.1 = b.1 ∧ strLe a.2 b.2)))

/-- Sum of `qtd` over the rows of the `(dia, tipo)` group `k`. -/
def diaTipoTotal (rows : List LRow) (k : Int × String) : Int :=
  ((rows.filter (fun r => r.dia = k.1 ∧ r.tipo = k.2)).map LRow.qtd).sum

/-- `rows.groupby(["dia", "tipo"], as_index=False)["qtd"].sum()`: one
`(dia, tipo, qtd)` row per distinct group key, keys ascending. -/
def groupDiaTipo (rows : List LRow) : List (Int × String × Int) :=
  (List.insertionSort diaTipoLe ((rows.map (fun r => (r.dia, r.tipo))).dedup)).map
    (fun k => (k.1, k.2, diaTipoTotal rows k))

/-- The display order of the aggregated error table: `dia` ascending, and
within a day `qtd` descending (`sort_values(["dia", "qtd"],
ascending=[True, False])`). -/
def aggOrder (a b : Int × String × Int) : Prop := a.1 < b.1 ∨ (a.1 = b.1 ∧ b.2.2 ≤ a.2.2)

instance : DecidableRel aggOrder := fun a b =>
  inferInstanceAs (Decidable (a.1 < b.1 ∨ (a.1 = b.1 ∧ b.2.2 ≤ a.2.2)))

instance : IsTotal (Int × String × Int) aggOrder where
  total a b := by
    rcases lt_trichotomy a.1 b.1 with h | h | h
    · exact Or.inl (Or.inl h)
    · rcases le_total a.2.2 b.2.2 with h2 | h2
      · exact Or.inr (Or.inr ⟨h.symm, h2⟩)
      · exact Or.inl (Or.inr ⟨h, h2⟩)
    · exact Or.inr (Or.inl h)

instance : IsTrans (Int × String × Int) aggOrder where
  trans a b c h1 h2 := by
    rcases h1 with h1 | ⟨e1, l1⟩
    · rcases h2 with h2 | ⟨e2, _⟩
      · exact Or.inl (h1.trans h2)
      · exact Or.inl (e2 ▸ h1)
    · rcases h2 with h2 | ⟨e2, l2⟩
      · exact Or.inl (e1 ▸ h2)
      · exact Or.inr ⟨e1.trans e2, l2.trans l1⟩

/-- Sum of `qtd` over the store rows having key `k`. -/
def sumQtdS (k : String × Int × String) (st : List SRow) : Int :=
  ((st.filter (fun r => r.skey = k)).map SRow.qtd).sum

/-- `build_chart_errors_by_tipo` (`streamlit_app.py:346-358`), aggregation
part: `None` when the window has no error rows; otherwise restrict the
error rows to the top-N categories, group by `(dia, tipo)` summing `qtd`,
and sort by `dia` ascending then `qtd` descending
(`sort_values(["dia", "qtd"], ascending=[True, False])`). -/
def build_chart_errors_by_tipo (cls : String → Bool) (rows : List LRow) (top_n : Nat) :
    Option (List (Int × String × Int)) :=
  let df_err := errRows cls rows
  if df_err = [] then none
  else
    let top := topTipos cls rows top_n
    let df_top := df_err.filter (fun r => r.tipo ∈ top)
    some (List.insertionSort aggOrder (groupDiaTipo df_top))

/-! Concrete fixtures used to instantiate the theorems below. -/

/-- A one-record dataset for window-selector instantiations. -/
def wrow : LRow := ⟨"ok", 0, "X", 1⟩

/-- An upload whose header (after trimming/lower-casing) lacks
`data_integracao` and `tipo`. -/
def tMissing : RawTable := ⟨["Status", " QTD "], []⟩

/-- An upload with all required columns whose single row has the numeric
`qtd` value `-5`. -/
def tNegQtd : RawTable :=
  ⟨["qtd", "status", "data_integracao", "tipo"],
   [⟨some (-5), "sucesso", "X", some ⟨0, 0⟩⟩]⟩

/-- An upload whose single row has a non-numeric `qtd` cell (NaN after
`to_numeric(..., errors="coerce")`) and a valid date. -/
def tNanQtd : RawTable :=
  ⟨["qtd", "status", "data_integracao", "tipo"],
   [⟨none, "ok", "X", some ⟨3, 10⟩⟩]⟩

/-- An upload with one unparseable date (NaT) and one valid date. -/
def tBadDate : RawTable :=
  ⟨["qtd", "status", "data_integracao", "tipo"],
   [⟨some 2, "ok", "X", none⟩, ⟨some 3, "erro", "Y", some ⟨5, 1⟩⟩]⟩

/-- A window with error-category totals A:50, B:30, C:30, D:10 (and one
non-error row). -/
def exRows : List LRow :=
  [⟨"erro", 0, "A", 20⟩, ⟨"erro", 1, "A", 30⟩, ⟨"erro", 0, "B", 30⟩,
   ⟨"erro", 1, "C", 30⟩, ⟨"erro", 0, "D", 10⟩, ⟨"sucesso", 0, "A", 99⟩]

/-! Helper lemmas about filtering and grouping. -/

theorem filter_key_nil {α κ : Type} [DecidableEq κ] (key : α → κ) (k : κ) (l : List α)
    (h : k ∉ l.map key) : l.filter (fun r => key r = k) = [] := by
  induction l with
  | nil => rfl
  | cons a l ih =>
    simp only [List.map_cons, List.mem_cons, not_or] at h
    have ha : ¬ (key a = k) := fun e => h.1 e.symm
    simp [List.filter_cons, ha, ih h.2]

theorem filter_self_nodup {κ : Type} [DecidableEq κ] (k : κ) (l : List κ) (h : l.Nodup) :
    l.filter (fun x => x = k) = if k ∈ l then [k] else [] := by
  induction l with
  | nil => simp
  | cons a l ih =>
    rcases List.nodup_cons.mp h with ⟨ha, hl⟩
    by_cases e : a = k
    · subst e
      simp [List.filter_cons, ih hl, ha]
    · have hk : ¬ (k = a) := fun e2 => e e2.symm
      simp [List.filter_cons, e, ih hl, hk]

theorem sumQtdS_persistRows (df : List NRow) (k : String × Int × String) :
    sumQtdS k (persistRows df) = sumQtdN k df := by
  unfold sumQtdS persistRows
  rw [List.filter_map, List.map_map]
  show (List.map (fun x : String × Int × String => sumQtdN x df)
      (List.filter (fun x => decide (x = k)) ((df.map NRow.skey).dedup))).sum = sumQtdN k df
  rw [filter_self_nodup k _ (List.nodup_dedup _)]
  by_cases hk : k ∈ (df.map NRow.skey).dedup
  · simp [hk]
  · rw [if_neg hk]
    have h0 : sumQtdN k df = 0 := by
      unfold sumQtdN
      rw [filter_key_nil NRow.skey k df (by simpa [List.mem_dedup] using hk)]
      rfl
    simp [h0]

theorem sumQtdL_load_all (st : List SRow) (k : String × Int × String) :
    sumQtdL k (load_all_from_db st) = sumQtdS k st := by
  unfold sumQtdL load_all_from_db sumQtdS
  rw [List.filter_map, List.map_map]
  rfl

/-! Claim theorems. -/

/-- C1: persisting a normalized table with the replace-all store operation
and reloading preserves the per-key `qtd` sums: for every
`(status, calendar day, tipo)` key the loaded sum equals the input sum, and
the loaded result carries exactly the keys occurring in the input. -/
theorem persist_load_roundtrip_sums (store : List SRow) (df : List NRow)
    (k : String × Int × String) :
    sumQtdL k (load_all_from_db (persist_df df store).1) = sumQtdN k df ∧
    (k ∈ (load_all_from_db (persist_df df store).1).map LRow.lkey ↔ k ∈ df.map NRow.skey) := by
  by_cases hdf : df = []
  · subst hdf
    simp [persist_df, load_all_from_db, sumQtdL, sumQtdN]
  · have hstore : (persist_df df store).1 = persistRows df := by
      simp [persist_df, hdf]
    rw [hstore]
    constructor
    · rw [sumQtdL_load_all, sumQtdS_persistRows]
    · have hmap : (load_all_from_db (persistRows df)).map LRow.lkey
          = (df.map NRow.skey).dedup := by
        unfold load_all_from_db persistRows
        rw [List.map_map, List.map_map]
        exact List.map_id _
      rw [hmap, List.mem_dedup]

/-- C2: `persist_df` is idempotent — running the replace-all persist twice
with the same normalized input leaves the store with exactly the same rows
as running it once. -/
theorem persist_df_idempotent (df : List NRow) (store : List SRow) :
    (persist_df df (persist_df df store).1).1 = (persist_df df store).1 := by
  by_cases hdf : df = [] <;> simp [persist_df, hdf]

/-- C3: an explicit error allow-list replaces the default heuristic with
pure set membership of the trimmed, lower-cased status: under the list
`["nok"]` the status `"erro"` is not an error, although the default
heuristic classifies it as one. -/
theorem is_error_override_replaces_heuristic :
    (∀ selected_errs s,
        is_error_status_override selected_errs s = true ↔ pyNormStatus s ∈ selected_errs) ∧
    is_error_status "erro" = true ∧
    is_error_status_override ["nok"] "erro" = false := by
  refine ⟨fun selected_errs s => ⟨of_decide_eq_true, decide_eq_true⟩, by decide, by decide⟩

/-- C10: the override redefinition is guarded by a non-emptiness test, so
an empty selected list leaves the default heuristic in effect (in
particular `"erro"` is still an error) and only a non-empty list switches
classification to set membership. -/
theorem empty_override_keeps_heuristic :
    (∀ s, effective_is_error [] s = is_error_status s) ∧
    effective_is_error [] "erro" = true ∧
    (∀ e selected_errs s,
        effective_is_error (e :: selected_errs) s
          = is_error_status_override (e :: selected_errs) s) := by
  refine ⟨fun s => ?_, by decide, fun e selected_errs s => ?_⟩ <;>
    simp [effective_is_error]

/-- C4: the window selector keeps exactly the records whose day lies in
the inclusive range `[ref - (day_count - 1), ref]`; `day_count = 1`
selects exactly the reference day's records, and the 1-day window equals
the 7-day window restricted to the reference day. -/
theorem window_mask_inclusive_range (rows : List LRow) (ref days : Int) (h : 1 ≤ days) :
    (∀ r, r ∈ selectWindow rows ref days ↔
        r ∈ rows ∧ ref - (days - 1) ≤ r.dia ∧ r.dia ≤ ref) ∧
    (∀ r, r ∈ selectWindow rows ref 1 ↔ r ∈ rows ∧ r.dia = ref) ∧
    selectWindow rows ref 1 = (selectWindow rows ref 7).filter (fun r => r.dia = ref) := by
  refine ⟨fun r => ?_, fun r => ?_, ?_⟩
  · simp [selectWindow, window_mask, List.mem_filter, and_assoc]
  · simp only [selectWindow, window_mask, List.mem_filter, Bool.and_eq_true, decide_eq_true_eq]
    constructor
    · rintro ⟨hr, h1, h2⟩
      exact ⟨hr, by omega⟩
    · rintro ⟨hr, he⟩
      exact ⟨hr, by omega, by omega⟩
  · rw [selectWindow, selectWindow, List.filter_filter]
    apply List.filter_congr
    intro r _
    simp only [window_mask, Bool.and_eq_true, decide_eq_true_eq, Bool.and_assoc]
    rw [Bool.eq_iff_iff]
    simp only [Bool.and_eq_true, decide_eq_true_eq]
    omega

/-- Instantiation of the window-selector theorem: on a one-record dataset
with reference day 0, the 1-day window contains that record. -/
theorem window_mask_inclusive_range_witness : wrow ∈ selectWindow [wrow] 0 1 :=
  ((window_mask_inclusive_range [wrow] 0 1 (by decide)).2.1 wrow).mpr (by decide)

theorem load_csv_ok_eq (t : RawTable) (out : List NRow) (h : load_csv t = .ok out) :
    out = t.rows.filterMap (fun raw => raw.data_integracao.map (convRow raw)) := by
  by_cases hm : missingCols t = []
  · simp only [load_csv, hm, ne_eq, not_true_eq_false, if_neg, ite_false,
      not_false_eq_true, Except.ok.injEq] at h
    exact h.symm
  · simp [load_csv, hm] at h

/-- C5: `load_csv` fails with the schema error exactly when a required
column is missing from the trimmed, lower-cased header; the error message
enumerates exactly the missing required columns in alphabetical order, and
no normalized output is produced in that case. -/
theorem load_csv_missing_columns (t : RawTable) :
    (missingCols t = [] → ∃ out, load_csv t = .ok out) ∧
    (missingCols t ≠ [] → load_csv t = .error (schemaErrMsg (missingCols t))) ∧
    List.Sorted (· < ·) (missingCols t) ∧
    (∀ c, c ∈ missingCols t ↔ c ∈ requiredCols ∧ c ∉ normCols t) := by
  refine ⟨fun h => ⟨t.rows.filterMap (fun raw => raw.data_integracao.map (convRow raw)),
      by simp [load_csv, h]⟩,
    fun h => by simp [load_csv, h], ?_, fun c => ?_⟩
  · have hs : List.Sorted (· < ·) requiredCols := by
      simp only [requiredCols, List.Sorted, String.lt_iff_toList_lt]
      decide
    exact List.Pairwise.filter _ hs
  · simp [missingCols, List.mem_filter]

/-- Instantiation of the schema-error theorem: a header containing only
`Status` and ` QTD ` fails with the message listing `data_integracao` and
`tipo`, alphabetically. -/
theorem load_csv_missing_columns_witness :
    load_csv tMissing = .error "CSV não contém as colunas obrigatórias: data_integracao, tipo" :=
  ((load_csv_missing_columns tMissing).2.1 (by decide)).trans
    (congrArg Except.error (by decide))

/-- C6 counterexample: normalization does not force `qtd` to be
non-negative — the numeric input `-5` survives normalization as the
negative count `-5`. -/
theorem load_csv_negative_qtd_cex :
    load_csv tNegQtd = .ok [⟨"sucesso", "X", -5, ⟨0, 0⟩, 0⟩] ∧
    ((⟨"sucesso", "X", -5, ⟨0, 0⟩, 0⟩ : NRow).qtd < 0) :=
  ⟨rfl, by decide⟩

/-- C6 (amended): after normalization every record's `qtd` is the integer
coercion of its input cell with NaN (non-numeric or missing) coerced to 0;
such rows are kept, not failed; and the outputs are non-negative whenever
every numeric input value is non-negative (a negative numeric input is
preserved as-is). -/
theorem load_csv_qtd_coercion (t : RawTable) (out : List NRow)
    (h : load_csv t = .ok out) :
    (∀ r ∈ out, ∃ raw ∈ t.rows, r.qtd = raw.qtd.getD 0) ∧
    (∀ raw ∈ t.rows, raw.qtd = none → ∀ d, raw.data_integracao = some d →
        ∃ r ∈ out, r.status = raw.status ∧ r.tipo = raw.tipo ∧ r.qtd = 0) ∧
    ((∀ raw ∈ t.rows, ∀ v, raw.qtd = some v → 0 ≤ v) → ∀ r ∈ out, 0 ≤ r.qtd) := by
  have hout := load_csv_ok_eq t out h
  subst hout
  refine ⟨fun r hr => ?_, fun raw hraw hq d hd => ?_, fun hpos r hr => ?_⟩
  · rcases List.mem_filterMap.mp hr with ⟨raw, hraw, hf⟩
    rcases Option.map_eq_some'.mp hf with ⟨d, _, hconv⟩
    exact ⟨raw, hraw, by rw [← hconv]; rfl⟩
  · refine ⟨convRow raw d, List.mem_filterMap.mpr ⟨raw, hraw, by rw [hd]; rfl⟩, rfl, rfl, ?_⟩
    show raw.qtd.getD 0 = 0
    rw [hq]
    rfl
  · rcases List.mem_filterMap.mp hr with ⟨raw, hraw, hf⟩
    rcases Option.map_eq_some'.mp hf with ⟨d, _, hconv⟩
    rw [← hconv]
    show (0 : Int) ≤ raw.qtd.getD 0
    cases hq : raw.qtd with
    | none => exact le_refl 0
    | some v => exact hpos raw hraw v hq
  
/-- Instantiation of the coercion theorem: the single row of `tNanQtd`
(non-numeric `qtd`, valid date) is kept with count 0. -/
theorem load_csv_qtd_coercion_witness :
    ∃ r ∈ [(⟨"ok", "X", 0, ⟨3, 10⟩, 3⟩ : NRow)],
      r.status = "ok" ∧ r.tipo = "X" ∧ r.qtd = 0 :=
  (load_csv_qtd_coercion tNanQtd [⟨"ok", "X", 0, ⟨3, 10⟩, 3⟩] rfl).2.1
    ⟨none, "ok", "X", some ⟨3, 10⟩⟩ (by decide) rfl ⟨3, 10⟩ rfl

theorem filterMap_date_length (l : List RawRow) :
    (l.filterMap (fun raw => raw.data_integracao.map (convRow raw))).length
      = (l.filter (fun raw => raw.data_integracao.isSome)).length := by
  induction l with
  | nil => rfl
  | cons a l ih =>
    cases hd : a.data_integracao <;>
      simp [List.filterMap_cons, List.filter_cons, hd, ih]

/-- C7: normalization drops (rather than defaults) every row whose date
fails to parse — the output has exactly one record per parseable-date
input row, and every retained record carries the parsed timestamp with its
calendar-day key derived from it. -/
theorem load_csv_drops_unparseable_dates (t : RawTable) (out : List NRow)
    (h : load_csv t = .ok out) :
    out.length = (t.rows.filter (fun raw => raw.data_integracao.isSome)).length ∧
    (∀ r ∈ out, ∃ raw ∈ t.rows, ∃ d, raw.data_integracao = some d ∧
        r.data_integracao = d ∧ r.dia = d.day) := by
  have hout := load_csv_ok_eq t out h
  subst hout
  refine ⟨filterMap_date_length t.rows, fun r hr => ?_⟩
  rcases List.mem_filterMap.mp hr with ⟨raw, hraw, hf⟩
  rcases Option.map_eq_some'.mp hf with ⟨d, hd, hconv⟩
  exact ⟨raw, hraw, d, hd, by rw [← hconv]; rfl, by rw [← hconv]; rfl⟩

/-- Instantiation of the date-dropping theorem: of the two rows of
`tBadDate` (one NaT date, one valid) exactly one record is produced. -/
theorem load_csv_drops_unparseable_dates_witness :
    ([(⟨"erro", "Y", 3, ⟨5, 1⟩, 5⟩ : NRow)]).length
      = (tBadDate.rows.filter (fun raw => raw.data_integracao.isSome)).length :=
  (load_csv_drops_unparseable_dates tBadDate [⟨"erro", "Y", 3, ⟨5, 1⟩, 5⟩] rfl).1

/-- C9: the top-N error view returns the distinguished `None` exactly when
the window contains no record classified as an error, and returns an
aggregated table whenever at least one error record exists. -/
theorem errors_by_tipo_none_iff_no_errors (cls : String → Bool) (rows : List LRow)
    (top_n : Nat) :
    (build_chart_errors_by_tipo cls rows top_n = none ↔ ∀ r ∈ rows, cls r.status = false) ∧
    ((∃ r ∈ rows, cls r.status = true) →
        ∃ agg, build_chart_errors_by_tipo cls rows top_n = some agg) := by
  have hiff : errRows cls rows = [] ↔ ∀ r ∈ rows, cls r.status = false := by
    unfold errRows
    rw [List.filter_eq_nil_iff]
    simp [Bool.not_eq_true]
  constructor
  · by_cases he : errRows cls rows = []
    · simp only [build_chart_errors_by_tipo, he, ite_true, true_iff]
      exact hiff.mp he
    · simp only [build_chart_errors_by_tipo, he, ite_false, reduceCtorEq, false_iff]
      rcases List.exists_mem_of_ne_nil _ he with ⟨x, hx⟩
      rcases List.mem_filter.mp hx with ⟨hxr, hxc⟩
      intro hall
      simpa [hall x hxr] using hxc
  · rintro ⟨r, hr, hcls⟩
    have he : errRows cls rows ≠ [] := fun he =>
      by simpa [hcls] using hiff.mp he r hr
    exact ⟨List.insertionSort aggOrder
        (groupDiaTipo ((errRows cls rows).filter
          (fun r => r.tipo ∈ topTipos cls rows top_n))),
      by simp [build_chart_errors_by_tipo, he]⟩

/-- Instantiation of the no-data theorem: `exRows` has an error record, so
the view produces an aggregated table. -/
theorem errors_by_tipo_none_iff_no_errors_witness :
    ∃ agg, build_chart_errors_by_tipo is_error_status exRows 8 = some agg :=
  (errors_by_tipo_none_iff_no_errors is_error_status exRows 8).2
    ⟨⟨"erro", 0, "A", 20⟩, by decide, by decide⟩

theorem mem_tipoTotals {rows : List LRow} {x : String × Int} (hx : x ∈ tipoTotals rows) :
    x.2 = tipoTotal rows x.1 := by
  rcases List.mem_map.mp hx with ⟨t, _, rfl⟩
  rfl

theorem tipoTotals_mem_of_key {rows : List LRow} {b : String} (hb : b ∈ tipoKeys rows) :
    (b, tipoTotal rows b) ∈ tipoTotals rows :=
  List.mem_map.mpr ⟨b, hb, rfl⟩

theorem topTipos_dominates (cls : String → Bool) (rows : List LRow) (n : Nat)
    (a b : String) (ha : a ∈ topTipos cls rows n)
    (hb : b ∈ tipoKeys (errRows cls rows)) (hnb : b ∉ topTipos cls rows n) :
    tipoTotal (errRows cls rows) b ≤ tipoTotal (errRows cls rows) a := by
  unfold topTipos at ha hnb
  rcases List.mem_map.mp ha with ⟨pa, hpa_take, hpa_fst⟩
  have hperm := List.perm_insertionSort valGe (tipoTotals (errRows cls rows))
  have hpa_tot : pa.2 = tipoTotal (errRows cls rows) pa.1 :=
    mem_tipoTotals (hperm.mem_iff.mp (List.mem_of_mem_take hpa_take))
  have hbl : (b, tipoTotal (errRows cls rows) b)
      ∈ List.insertionSort valGe (tipoTotals (errRows cls rows)) :=
    hperm.mem_iff.mpr (tipoTotals_mem_of_key hb)
  rw [← List.take_append_drop n
    (List.insertionSort valGe (tipoTotals (errRows cls rows)))] at hbl
  rcases List.mem_append.mp hbl with hbt | hbd
  · exact absurd (List.mem_map.mpr ⟨_, hbt, rfl⟩) hnb
  · have hsort : List.Pairwise valGe
        (List.insertionSort valGe (tipoTotals (errRows cls rows))) :=
      List.sorted_insertionSort valGe (tipoTotals (errRows cls rows))
    rw [← List.take_append_drop n
      (List.insertionSort valGe (tipoTotals (errRows cls rows)))] at hsort
    have hvg := (List.pairwise_append.mp hsort).2.2 pa hpa_take _ hbd
    rw [← hpa_fst, ← hpa_tot]
    exact hvg

theorem build_some_props (cls : String → Bool) (rows : List LRow) (n : Nat)
    (agg : List (Int × String × Int))
    (h : build_chart_errors_by_tipo cls rows n = some agg) :
    List.Sorted aggOrder agg ∧
    ∀ x ∈ agg, x.2.1 ∈ topTipos cls rows n ∧
      x.2.2 = (((errRows cls rows).filter
          (fun r => r.dia = x.1 ∧ r.tipo = x.2.1)).map LRow.qtd).sum := by
  by_cases he : errRows cls rows = []
  · simp [build_chart_errors_by_tipo, he] at h
  · simp only [build_chart_errors_by_tipo, he, ite_false, Option.some.injEq] at h
    subst h
    refine ⟨List.sorted_insertionSort aggOrder _, fun x hx => ?_⟩
    have hx2 : x ∈ groupDiaTipo ((errRows cls rows).filter
        (fun r => r.tipo ∈ topTipos cls rows n)) :=
      (List.perm_insertionSort aggOrder _).mem_iff.mp hx
    rcases List.mem_map.mp hx2 with ⟨k, hk, hmk⟩
    have hk2 : k ∈ ((errRows cls rows).filter
        (fun r => r.tipo ∈ topTipos cls rows n)).map (fun r => (r.dia, r.tipo)) :=
      List.mem_dedup.mp ((List.perm_insertionSort diaTipoLe _).mem_iff.mp hk)
    rcases List.mem_map.mp hk2 with ⟨r, hr, hkey⟩
    rcases List.mem_filter.mp hr with ⟨hre, hrt⟩
    have htop : k.2 ∈ topTipos cls rows n := by
      rw [← hkey]
      simpa using hrt
    have hfeq : ((errRows cls rows).filter
          (fun r => r.tipo ∈ topTipos cls rows n)).filter
          (fun r => r.dia = k.1 ∧ r.tipo = k.2)
        = (errRows cls rows).filter (fun r => r.dia = k.1 ∧ r.tipo = k.2) := by
      rw [List.filter_filter]
      apply List.filter_congr
      intro q _
      by_cases hq : q.tipo = k.2
      · simp [hq, htop]
      · simp [hq]
    subst hmk
    refine ⟨htop, ?_⟩
    show diaTipoTotal ((errRows cls rows).filter
        (fun r => r.tipo ∈ topTipos cls rows n)) k
      = (((errRows cls rows).filter
          (fun r => r.dia = k.1 ∧ r.tipo = k.2)).map LRow.qtd).sum
    unfold diaTipoTotal
    rw [hfeq]

/-- C8: the top-N error view ranks categories by their summed error count
over the whole window (every selected category's total dominates every
unselected one), and the aggregated table it returns is grouped by
`(dia, tipo)` over the window's error records restricted to the selected
categories, ordered by day ascending then count descending; ties in the
totals are broken lexically, so on totals A:50, B:30, C:30, D:10 with N=2
the selection is A and B (the lexically smaller of B, C). -/
theorem errors_by_tipo_topn_ranking :
    (∀ (cls : String → Bool) (rows : List LRow) (n : Nat) (a b : String),
        a ∈ topTipos cls rows n → b ∈ tipoKeys (errRows cls rows) →
        b ∉ topTipos cls rows n →
          tipoTotal (errRows cls rows) b ≤ tipoTotal (errRows cls rows) a) ∧
    (∀ (cls : String → Bool) (rows : List LRow) (n : Nat)
        (agg : List (Int × String × Int)),
        build_chart_errors_by_tipo cls rows n = some agg →
          List.Sorted aggOrder agg ∧
          ∀ x ∈ agg, x.2.1 ∈ topTipos cls rows n ∧
            x.2.2 = (((errRows cls rows).filter
                (fun r => r.dia = x.1 ∧ r.tipo = x.2.1)).map LRow.qtd).sum) ∧
    topTipos is_error_status exRows 2 = ["A", "B"] ∧
    tipoTotal (errRows is_error_status exRows) "A" = 50 ∧
    tipoTotal (errRows is_error_status exRows) "B" = 30 ∧
    tipoTotal (errRows is_error_status exRows) "C" = 30 ∧
    tipoTotal (errRows is_error_status exRows) "D" = 10 :=
  ⟨topTipos_dominates, build_some_props, by decide, rfl, rfl, rfl, rfl⟩

/-- Instantiation of the ranking theorem on `exRows`: the unselected
category C's total is dominated by the selected A's, and the concrete
aggregated table is ordered by day ascending, count descending. -/
theorem errors_by_tipo_topn_ranking_witness :
    (tipoTotal (errRows is_error_status exRows) "C"
      ≤ tipoTotal (errRows is_error_status exRows) "A") ∧
    List.Sorted aggOrder [((0 : Int), ("B", (30 : Int))), (0, ("A", 20)), (1, ("A", 30))] :=
  ⟨errors_by_tipo_topn_ranking.1 is_error_status exRows 2 "A" "C"
      (by decide) (by decide) (by decide),
    (errors_by_tipo_topn_ranking.2.1 is_error_status exRows 2
      [(0, ("B", 30)), (0, ("A", 20)), (1, ("A", 30))] rfl).1⟩
